import Mathlib

/-!
Shallow embedding of `src/scripts/generate_musicals.py` (the Westend data
pipeline): cell normalization, visibility/identity/uniqueness filtering,
date-derived lifecycle status, soon-window flags, and the deterministic
JSON snapshot writer.  Python strings are modelled as Lean `String`s
(lists of Unicode code points), Python `int` as `Int`, Python `float`
values as exact rationals (`ℚ`; IEEE-754 rounding and shortest-roundtrip
repr are outside the modelled scope — every float exercised below is an
exactly representable small decimal), and raising code as `Except`.
-/

namespace WestendData

/-- Python `str.isspace` / `str.strip` character class, tabulated for the
ASCII control and space characters (code points 9–13, 28–31 and 32).
Python additionally strips some non-ASCII Unicode spaces; those code
points never occur in this development. -/
def pyIsSpaceChar (c : Char) : Bool :=
  c.toNat = 32 || (9 ≤ c.toNat && c.toNat ≤ 13) || (28 ≤ c.toNat && c.toNat ≤ 31)

/-- Python's Unicode `Numeric_Type=Decimal` class (the characters `int()`
accepts as digits), tabulated for ASCII `0`–`9` and the Arabic-Indic
digits U+0660–U+0669 used in this development; Python's full table has
further decimal-digit ranges that never occur here. -/
def pyIsDecimalChar (c : Char) : Bool :=
  (48 ≤ c.toNat && c.toNat ≤ 57) || (1632 ≤ c.toNat && c.toNat ≤ 1641)

/-- Python `str.isdigit` character class: decimal digits plus characters
with `Numeric_Type=Digit`, tabulated here for the superscripts ¹ ² ³
(U+00B9, U+00B2, U+00B3); Python's full table has further digit
characters that never occur in this development. -/
def pyIsDigitChar (c : Char) : Bool :=
  pyIsDecimalChar c || c.toNat = 178 || c.toNat = 179 || c.toNat = 185

/-- ASCII fragment of Python `str.lower`, character by character (the
only strings lowered by the script are ASCII). -/
def lowerChar (c : Char) : Char :=
  if 65 ≤ c.toNat && c.toNat ≤ 90 then Char.ofNat (c.toNat + 32) else c

def lowerChars (l : List Char) : List Char := l.map lowerChar

/-- Python `str.strip()` on a character list: drop leading and trailing
whitespace. -/
def stripChars (l : List Char) : List Char :=
  ((l.dropWhile pyIsSpaceChar).reverse.dropWhile pyIsSpaceChar).reverse

def pyStrip (s : String) : String := String.mk (stripChars s.toList)

def pyLower (s : String) : String := String.mk (lowerChars s.toList)

/-- Numeric value of a decimal digit character (ASCII or Arabic-Indic). -/
def digitVal (c : Char) : Nat :=
  if 48 ≤ c.toNat && c.toNat ≤ 57 then c.toNat - 48 else c.toNat - 1632

def digitsVal (l : List Char) : Nat := l.foldl (fun a c => a * 10 + digitVal c) 0

/-- Values a normalized cell or a derived field can hold, mirroring the
Python dynamic types flowing through the script: `None`, `bool`, `int`,
`float` (as an exact rational) and `str`. -/
inductive Value where
  | NoneV : Value
  | boolV : Bool → Value
  | intV : Int → Value
  | floatV : ℚ → Value
  | strV : String → Value
deriving DecidableEq, Repr

/-- Python truthiness (`if not x` / `x or y`) for the values above. -/
def pyTruthy : Value → Bool
  | .NoneV => false
  | .boolV b => b
  | .intV n => decide (n ≠ 0)
  | .floatV q => decide (q.num ≠ 0)
  | .strV s => decide (s ≠ "")

/-- The numeric class of Python `==`: `bool`, `int` and `float` compare
by mathematical value (`1.0 == 1 == True`). -/
def numVal : Value → Option ℚ
  | .boolV b => some (mkRat (if b then 1 else 0) 1)
  | .intV n => some (mkRat n 1)
  | .floatV q => some q
  | .NoneV => none
  | .strV _ => none

/-- Python `==` on the modelled values: numeric values compare by value
across `bool`/`int`/`float`; strings compare as strings; values of
different classes are unequal. -/
def pyEq (a b : Value) : Bool :=
  match numVal a, numVal b with
  | some x, some y => decide (x = y)
  | none, none =>
    match a, b with
    | .strV s, .strV t => decide (s = t)
    | .NoneV, .NoneV => true
    | _, _ => false
  | _, _ => false

/-- Python `repr`/`str` of a float, for the exactly representable finite
decimals produced in this model: integral values print as `n.0`, other
finite decimals with their exact digits.  (CPython prints the shortest
roundtripping decimal of the IEEE value; on the exact short decimals
exercised here the two agree.) -/
def floatRepr (q : ℚ) : String :=
  if q.den = 1 then toString q.num ++ ".0"
  else
    match (List.range 30).find? (fun k => q.den ∣ 10 ^ (k + 1)) with
    | some k =>
      let k := k + 1
      let n := q.num * ((10 ^ k / q.den : Nat) : Int)
      let a := n.natAbs
      let frac := toString (a % 10 ^ k)
      (if n < 0 then "-" else "") ++ toString (a / 10 ^ k) ++ "." ++
        String.mk (List.replicate (k - frac.length) '0') ++ frac
    | none => toString q.num ++ "/" ++ toString q.den

/-- Python `str()` of a value. -/
def pyStr : Value → String
  | .NoneV => "None"
  | .boolV b => if b then "True" else "False"
  | .intV n => toString n
  | .floatV q => floatRepr q
  | .strV s => s

/-- Python `int(s)` on the string shapes reachable from `normalize_cell`:
optional whitespace and sign followed by decimal digits.  (Full `int()`
also accepts underscores between digits; an underscore never passes the
`isdigit` guard in the script, so that extension is unreachable here.) -/
def pyIntOfChars (l : List Char) : Option Int :=
  let l := stripChars l
  let sg : Int := if l.head? = some '-' then -1 else 1
  let t := if l.head? = some '-' ∨ l.head? = some '+' then l.tail else l
  if t ≠ [] ∧ t.all pyIsDecimalChar then some (sg * (digitsVal t : Int)) else none

/-- Exponent suffix of a Python float literal: empty, or `e`/`E` with an
optional sign and decimal digits. -/
def expVal : List Char → Option Int
  | [] => some 0
  | c :: rest =>
    if c = 'e' ∨ c = 'E' then
      match rest with
      | '+' :: ds =>
        if ds ≠ [] ∧ ds.all pyIsDecimalChar then some ((digitsVal ds : Int)) else none
      | '-' :: ds =>
        if ds ≠ [] ∧ ds.all pyIsDecimalChar then some (-(digitsVal ds : Int)) else none
      | ds =>
        if ds ≠ [] ∧ ds.all pyIsDecimalChar then some ((digitsVal ds : Int)) else none
    else none

/-- Exact value of a signed decimal literal
`sg · (mantissa / 10^fracDigits) · 10^e`, built with core `mkRat`. -/
def scaledRat (sg : Int) (mantissa : Nat) (fracDigits : Nat) (e : Int) : ℚ :=
  if 0 ≤ e then mkRat (sg * (mantissa : Int) * ((10 ^ e.toNat : Nat) : Int)) (10 ^ fracDigits)
  else mkRat (sg * (mantissa : Int)) (10 ^ fracDigits * 10 ^ (-e).toNat)

/-- Python `float(s)` on signed decimal literals (optional sign, digits
with an optional fractional point, optional exponent), with the exact
rational value.  Full `float()` additionally accepts underscores and the
named values `inf`/`nan`; those shapes never pass the script's
`"." in s and any(ch.isdigit() ...)` guard or never occur here. -/
def pyFloatOfChars (l : List Char) : Option ℚ :=
  let l := stripChars l
  let sg : Int := match l with | '-' :: _ => -1 | _ => 1
  let l2 : List Char := match l with | '-' :: r => r | '+' :: r => r | _ => l
  let p1 := l2.span pyIsDecimalChar
  match p1.2 with
  | '.' :: r2 =>
    let p2 := r2.span pyIsDecimalChar
    if p1.1 = [] ∧ p2.1 = [] then none
    else
      match expVal p2.2 with
      | some e =>
        some (scaledRat sg (digitsVal p1.1 * 10 ^ p2.1.length + digitsVal p2.1) p2.1.length e)
      | none => none
  | r1 =>
    if p1.1 = [] then none
    else
      match expVal r1 with
      | some e => some (scaledRat sg (digitsVal p1.1) 0 e)
      | none => none

/-- Python `s.isdigit()`: non-empty and every character a digit. -/
def pyIsDigitL (l : List Char) : Bool :=
  decide (l ≠ []) && l.all pyIsDigitChar

/-- The `isdigit`-based guard of the integer branch of `normalize_cell`
(line 36): `s.isdigit() or (s.startswith("-") and s[1:].isdigit())`. -/
def intGuard (l : List Char) : Bool :=
  pyIsDigitL l || (decide (l.head? = some '-') && pyIsDigitL l.tail)

/-- The float branch of `normalize_cell` (lines 42–46): if the trimmed
text contains a `.` and some digit, try `float(s)`, silently keeping the
text on failure. -/
def floatBranch (l : List Char) : Value :=
  if l.contains '.' && l.any pyIsDigitChar then
    match pyFloatOfChars l with
    | some q => .floatV q
    | none => .strV (String.mk l)
  else .strV (String.mk l)

/-- `normalize_cell` (lines 25–48): `None`/blank → `""` (the script runs
with `KEEP_EMPTY_AS_EMPTY_STRING = True`), case-insensitive `none` → the
literal text `"none"`, `isdigit`-shaped text → `int` (falling through on
parse failure), dotted numeric text → `float` (falling through on parse
failure), anything else → the trimmed text. -/
def normalize_cell (v : Option String) : Value :=
  match v with
  | none => .strV ""
  | some v =>
    let l := stripChars v.toList
    if l = [] then .strV ""
    else if lowerChars l = "none".toList then .strV "none"
    else if intGuard l then
      match pyIntOfChars l with
      | some n => .intV n
      | none => floatBranch l
    else floatBranch l

/-- `canonical_key` (lines 19–23): trim the header; the literal `ID`
becomes `id`, every other header passes through. -/
def canonical_key (k : String) : String :=
  let k := pyStrip k
  if k = "ID" then "id" else k

/-- A Python `datetime.date`: year, month, day.  Values produced by the
parser below are always calendar-valid. -/
structure Date where
  year : Nat
  month : Nat
  day : Nat
deriving DecidableEq, Repr

/-- Python `date` comparison `a < b`: lexicographic on
(year, month, day). -/
def dateLt (a b : Date) : Bool :=
  decide (a.year < b.year) ||
    (decide (a.year = b.year) &&
      (decide (a.month < b.month) ||
        (decide (a.month = b.month) && decide (a.day < b.day))))

/-- Length of a month in the proleptic Gregorian calendar used by
`datetime.date`. -/
def daysInMonth (y m : Nat) : Nat :=
  if m = 2 then (if y % 4 = 0 ∧ (y % 100 ≠ 0 ∨ y % 400 = 0) then 29 else 28)
  else if m = 4 ∨ m = 6 ∨ m = 9 ∨ m = 11 then 30 else 31

/-- Strict `datetime.strptime(s, "%Y-%m-%d").date()`: exactly four digits
for `%Y`, one or two digits for `%m` and `%d`, nothing left over, and the
result must be a valid calendar date with year ≥ 1. -/
def parseYMD (l : List Char) : Option Date :=
  match l with
  | a :: b :: c :: d :: '-' :: rest =>
    if pyIsDecimalChar a ∧ pyIsDecimalChar b ∧ pyIsDecimalChar c ∧ pyIsDecimalChar d then
      let y := digitsVal [a, b, c, d]
      match rest.span pyIsDecimalChar with
      | (mcs, '-' :: rest2) =>
        if mcs.length = 1 ∨ mcs.length = 2 then
          let m := digitsVal mcs
          match rest2.span pyIsDecimalChar with
          | (dcs, []) =>
            if dcs.length = 1 ∨ dcs.length = 2 then
              let dd := digitsVal dcs
              if 1 ≤ y ∧ 1 ≤ m ∧ m ≤ 12 ∧ 1 ≤ dd ∧ dd ≤ daysInMonth y m then
                some ⟨y, m, dd⟩
              else none
            else none
          | _ => none
        else none
      | _ => none
    else none
  | _ => none

/-- `parse_date` (lines 13–17): trim; blank or case-insensitive `none`
is "no date"; anything else must parse strictly as `YYYY-MM-DD`, and a
parse failure is a raised `ValueError` (modelled as `Except.error`). -/
def parse_date (s : String) : Except String (Option Date) :=
  let l := stripChars s.toList
  if l = [] ∨ lowerChars l = "none".toList then .ok none
  else
    match parseYMD l with
    | some d => .ok (some d)
    | none =>
      .error ("time data '" ++ String.mk l ++ "' does not match format '%Y-%m-%d'")

/-- `date.isoformat()`: zero-padded `YYYY-MM-DD`. -/
def isoformat (d : Date) : String :=
  let pad := fun (w n : Nat) =>
    let s := toString n
    String.mk (List.replicate (w - s.length) '0') ++ s
  pad 4 d.year ++ "-" ++ pad 2 d.month ++ "-" ++ pad 2 d.day

/-- Rata-die day number of a Gregorian date; differences of these model
Python's `(a - b).days`. -/
def ratadie (dt : Date) : Int :=
  let y : Int := if dt.month ≤ 2 then (dt.year : Int) - 1 else (dt.year : Int)
  let m : Int := if dt.month ≤ 2 then (dt.month : Int) + 12 else (dt.month : Int)
  365 * y + y / 4 - y / 100 + y / 400 + (153 * (m + 1)) / 5 + (dt.day : Int) - 428

/-- Python `start and today < start`: a date object is always truthy, so
this is "a start date exists and today is before it". -/
def startGate (start : Option Date) (today : Date) : Bool :=
  match start with
  | some s => dateLt today s
  | none => false

/-- Python `close and today > close`: "a close date exists and today is
after it". -/
def closeGate (close : Option Date) (today : Date) : Bool :=
  match close with
  | some c => dateLt c today
  | none => false

/-- `compute_status` (lines 50–55): `future` if a start date exists and
today is before it, else `inactive` if a close date exists and today is
after it, else `active`. -/
def compute_status (start close : Option Date) (today : Date) : String :=
  if startGate start today then "future"
  else if closeGate close today then "inactive"
  else "active"

/-- `compute_soon_flags` (lines 63–84): day distances to start/close and
the `coming_soon`/`closing_soon` window tests. -/
def compute_soon_flags (status : String) (start close : Option Date) (today : Date)
    (window_days : Int) : Bool × Bool × Option Int × Option Int :=
  let days_until_start := start.map (fun s => ratadie s - ratadie today)
  let days_until_close := close.map (fun c => ratadie c - ratadie today)
  let coming_soon := decide (status = "future") &&
    (match days_until_start with
     | some d => decide (0 ≤ d) && decide (d ≤ window_days)
     | none => false)
  let closing_soon := decide (status = "active") &&
    (match days_until_close with
     | some d => decide (0 ≤ d) && decide (d ≤ window_days)
     | none => false)
  (coming_soon, closing_soon, days_until_start, days_until_close)

/-- A Python dict with string keys in insertion order (the assembled
record). -/
abbrev Obj := List (String × Value)

/-- A raw CSV row as produced by `csv.DictReader`: header → cell text
(`none` models a Python `None` cell from a short row). -/
abbrev Row := List (String × Option String)

/-- Dict lookup `obj.get(k)`. -/
def dictGet (obj : Obj) (k : String) : Option Value :=
  match obj with
  | [] => none
  | (k0, v0) :: rest => if k0 = k then some v0 else dictGet rest k

/-- Dict update `obj[k] = v`: replace in place if the key exists, else
append (Python dicts preserve insertion order). -/
def dictSet (obj : Obj) (k : String) (v : Value) : Obj :=
  match obj with
  | [] => [(k, v)]
  | (k0, v0) :: rest => if k0 = k then (k0, v) :: rest else (k0, v0) :: dictSet rest k v

/-- `x or ""` then `str(...)` as on line 133: a falsy value (absent, `""`,
`0`, `0.0`) becomes `""`, a truthy value is stringified. -/
def orEmptyStr (v : Option Value) : String :=
  match v with
  | some v => if pyTruthy v then pyStr v else ""
  | none => ""

/-- `obj.get(k) or ""` kept as a value (lines 141–142): a falsy or absent
value becomes the empty string value. -/
def orEmptyVal (v : Option Value) : Value :=
  match v with
  | some v => if pyTruthy v then v else .strV ""
  | none => .strV ""

/-- The value `v` tested by `is_visible_on_app` (lines 58–60):
`visible_on_app` with default `0`, strings stripped. -/
def visValue (obj : Obj) : Value :=
  match (dictGet obj "visible_on_app").getD (.intV 0) with
  | .strV s => .strV (pyStrip s)
  | x => x

/-- `is_visible_on_app` (lines 57–61): accept via Python `==` against
`1` or `"1"`. -/
def is_visible_on_app (obj : Obj) : Bool :=
  pyEq (visValue obj) (.intV 1) || pyEq (visValue obj) (.strV "1")

/-- The blank-row test of line 105: every cell is `None` or whitespace. -/
def blankRow (row : Row) : Bool :=
  row.all (fun kv => stripChars (kv.2.getD "").toList = [])

/-- The assembly loop of lines 108–113: canonicalize each header, skip
empty keys, normalize each cell. -/
def assembleObj (row : Row) : Obj :=
  row.foldl
    (fun obj kv =>
      let key := canonical_key kv.1
      if key = "" then obj else dictSet obj key (normalize_cell kv.2))
    []

/-- `show_id` of lines 119–121: the `id` field with strings stripped. -/
def strippedId (obj : Obj) : Option Value :=
  (dictGet obj "id").map (fun v => match v with | .strV s => .strV (pyStrip s) | x => x)

/-- Truthiness of an optional value (`if not show_id`). -/
def pyTruthyOpt : Option Value → Bool
  | none => false
  | some v => pyTruthy v

/-- Membership of the `seen_ids` set (line 127), via Python `==`. -/
def pyMem (v : Value) (seen : List Value) : Bool := seen.any (fun w => pyEq v w)

def missingIdMsg : String := "Row missing ID; skipping row."

def dupMsg (v : Value) : String :=
  "Duplicate id '" ++ pyStr v ++ "' detected; skipping duplicate row."

/-- `OPEN_ENDED_PLACEHOLDERS` (line 8) restricted to its string members;
the `None` member can never equal the string `close_raw` tested against
it. -/
def openEndedPlaceholder (s : String) : Bool :=
  s = "" || s = "none" || s = "2099-12-31"

/-- `close_raw` of line 134: `str(obj.get("close_date") or "").strip()`. -/
def closeRawOf (obj : Obj) : String :=
  pyStrip (orEmptyStr (dictGet obj "close_date"))

/-- Lines 136–138: the close date is parsed only when `close_raw` is
non-empty, not an open-ended placeholder, and not `none` in any case;
otherwise there is no close date. -/
def computeClose (obj : Obj) : Except String (Option Date) :=
  let close_raw := closeRawOf obj
  if close_raw ≠ "" ∧ openEndedPlaceholder close_raw = false ∧ pyLower close_raw ≠ "none" then
    parse_date close_raw
  else .ok none

/-- The argument of line 133's parse:
`str(obj.get("start_date") or "")`. -/
def startRawOf (obj : Obj) : String :=
  orEmptyStr (dictGet obj "start_date")

/-- Line 133: `start = parse_date(str(obj.get("start_date") or ""))`. -/
def computeStart (obj : Obj) : Except String (Option Date) :=
  parse_date (startRawOf obj)

def optIntVal : Option Int → Value
  | some n => .intV n
  | none => .NoneV

/-- Lines 140–159: rewrite the date fields (ISO form for a parsed start,
raw trimmed text for close), then add `status` and the soon-window
fields. -/
def annotateObj (obj : Obj) (start close : Option Date) (close_raw : String) (today : Date)
    (window_days : Int) : Obj :=
  let obj := dictSet obj "start_date"
    (match start with
     | some d => .strV (isoformat d)
     | none => orEmptyVal (dictGet obj "start_date"))
  let obj := dictSet obj "close_date"
    (if close_raw ≠ "" then .strV close_raw else orEmptyVal (dictGet obj "close_date"))
  let status := compute_status start close today
  let obj := dictSet obj "status" (.strV status)
  let f := compute_soon_flags status start close today window_days
  let obj := dictSet obj "coming_soon" (.boolV f.1)
  let obj := dictSet obj "closing_soon" (.boolV f.2.1)
  let obj := dictSet obj "days_until_start" (optIntVal f.2.2.1)
  let obj := dictSet obj "days_until_close" (optIntVal f.2.2.2)
  obj

/-- One step result: the kept record if any, the updated `seen_ids`, and
the warnings printed for this row. -/
abbrev StepOut := Option Obj × List Value × List String

/-- The date/annotation tail of the loop (lines 132–161), reached once a
row passed visibility, identity and uniqueness: parse the start date
(raising aborts the run), compute the close date (ditto), then annotate
and keep the record, recording its id as seen. -/
def annotateStage (today : Date) (window_days : Int) (seen : List Value) (obj : Obj)
    (sid : Value) : Except String StepOut :=
  match computeStart obj with
  | .error e => .error e
  | .ok start =>
    match computeClose obj with
    | .error e => .error e
    | .ok close =>
      .ok (some (annotateObj obj start close (closeRawOf obj) today window_days),
        seen ++ [sid], [])

/-- The uniqueness check of lines 127–130: a seen id is dropped with a
duplicate warning, otherwise the id is recorded and processing
continues. -/
def dupStage (today : Date) (window_days : Int) (seen : List Value) (obj : Obj)
    (sid : Value) : Except String StepOut :=
  if pyMem sid seen then .ok (none, seen, [dupMsg sid])
  else annotateStage today window_days seen obj sid

/-- The identity check of lines 119–125 (`if not show_id`): a falsy
(absent, blank, zero) stripped id is dropped with the missing-id
warning, otherwise the stripped id continues to the uniqueness check. -/
def idStage (today : Date) (window_days : Int) (seen : List Value) (obj : Obj) :
    Except String StepOut :=
  if pyTruthyOpt (strippedId obj) then
    dupStage today window_days seen obj ((strippedId obj).getD .NoneV)
  else .ok (none, seen, [missingIdMsg])

/-- One iteration of the row loop (lines 104–161): skip blank rows,
assemble, silently drop invisible records, then identity, uniqueness and
annotation. -/
def stepRow (today : Date) (window_days : Int) (seen : List Value) (row : Row) :
    Except String StepOut :=
  if blankRow row then .ok (none, seen, [])
  else
    let obj := assembleObj row
    if is_visible_on_app obj then idStage today window_days seen obj
    else .ok (none, seen, [])

/-- The whole row loop: thread `seen_ids`, collect surviving records in
source order and warnings in emission order; a raised error aborts the
run. -/
def processRows (today : Date) (window_days : Int) :
    List Value → List Row → Except String (List Obj × List Value × List String)
  | seen, [] => .ok ([], seen, [])
  | seen, r :: rest =>
    match stepRow today window_days seen r with
    | .error e => .error e
    | .ok (kept, seen2, ws) =>
      match processRows today window_days seen2 rest with
      | .error e => .error e
      | .ok (objs, seenF, wsRest) =>
        .ok ((match kept with | some o => o :: objs | none => objs), seenF, ws ++ wsRest)

/-- The environment-provided configuration: the soon-window length
(`SOON_WINDOW_DAYS`, default 60, line 89) and the legacy-strict-mode
toggle described by the spec (default off). -/
structure Config where
  windowDays : Int
  dropInactive : Bool
deriving DecidableEq, Repr

/-- Defaults of the latest revision: window 60, strict mode off. -/
def defaultConfig : Config := ⟨60, false⟩

/-- Modelled from the spec: the legacy-strict-mode post-annotation filter
("when ON, any record whose computed status is `inactive` is dropped
from the final output").  This capability belongs to an earlier script
variant that is not under `src/`; `src/scripts/generate_musicals.py`
(the latest revision) matches the toggle's OFF state. -/
def legacyStrictFilter (objs : List Obj) : List Obj :=
  objs.filter (fun o => !decide (dictGet o "status" = some (.strV "inactive")))

/-- The surviving record list of one run: the row loop followed by the
(configuration-gated) legacy strict-mode post-filter. -/
def pipelineObjs (rows : List Row) (today : Date) (cfg : Config) :
    Except String (List Obj) :=
  match processRows today cfg.windowDays [] rows with
  | .error e => .error e
  | .ok (objs, _, _) => .ok (if cfg.dropInactive then legacyStrictFilter objs else objs)

/-- Hex digit (lowercase) for `\uXXXX` escapes. -/
def hexDigit (n : Nat) : Char := if n < 10 then Char.ofNat (48 + n) else Char.ofNat (87 + n)

/-- Escaping applied by `json.dump` with `ensure_ascii=False`: backslash,
double quote, the shorthand control escapes, and `\u00xx` for the other
control characters; everything else (including non-ASCII) verbatim. -/
def escChar (c : Char) : List Char :=
  if c = '\\' then ['\\', '\\']
  else if c = '"' then ['\\', '"']
  else if c.toNat = 8 then ['\\', 'b']
  else if c.toNat = 9 then ['\\', 't']
  else if c.toNat = 10 then ['\\', 'n']
  else if c.toNat = 12 then ['\\', 'f']
  else if c.toNat = 13 then ['\\', 'r']
  else if c.toNat < 32 then
    ['\\', 'u', '0', '0', hexDigit (c.toNat / 16), hexDigit (c.toNat % 16)]
  else [c]

def jsonEscape (s : String) : String := String.mk (s.toList.map escChar).flatten

def quoteJson (s : String) : String := "\"" ++ jsonEscape s ++ "\""

/-- JSON scalar serialization matching `json.dump`. -/
def renderValue : Value → String
  | .NoneV => "null"
  | .boolV b => if b then "true" else "false"
  | .intV n => toString n
  | .floatV q => floatRepr q
  | .strV s => quoteJson s

def spaces (n : Nat) : String := String.mk (List.replicate n ' ')

def joinSep (sep : String) : List String → String
  | [] => ""
  | [x] => x
  | x :: xs => x ++ sep ++ joinSep sep xs

/-- Code-point lexicographic order on character lists — Python's `<` on
`str`, the order `sort_keys=True` sorts by. -/
def charsLt : List Char → List Char → Bool
  | [], [] => false
  | [], _ :: _ => true
  | _ :: _, [] => false
  | a :: as, b :: bs =>
    if a.toNat < b.toNat then true
    else if b.toNat < a.toNat then false
    else charsLt as bs

def strLt (a b : String) : Bool := charsLt a.toList b.toList

/-- Insert a key/value pair into a list sorted by key (code-point
order, as Python `sort_keys=True` sorts `str`). -/
def insertPair (kv : String × Value) : List (String × Value) → List (String × Value)
  | [] => [kv]
  | x :: xs => if strLt kv.1 x.1 then kv :: x :: xs else x :: insertPair kv xs

def sortPairs : List (String × Value) → List (String × Value)
  | [] => []
  | x :: xs => insertPair x (sortPairs xs)

/-- One record as rendered by `json.dump(..., indent=2, sort_keys=True)`
at indentation level `lvl`. -/
def renderObj (lvl : Nat) (obj : Obj) : String :=
  match sortPairs obj with
  | [] => "\x7b\x7d"
  | kvs =>
    "\x7b\n" ++
      joinSep ",\n"
        (kvs.map (fun kv => spaces (lvl + 2) ++ quoteJson kv.1 ++ ": " ++ renderValue kv.2)) ++
      "\n" ++ spaces lvl ++ "\x7d"

/-- The top-level array as rendered by `json.dump(musicals, f,
ensure_ascii=False, indent=2, sort_keys=True)` (line 168). -/
def renderTop (objs : List Obj) : String :=
  match objs with
  | [] => "[]"
  | _ => "[\n" ++ joinSep ",\n" (objs.map (fun o => spaces 2 ++ renderObj 2 o)) ++ "\n]"

/-- The full pipeline from parsed CSV rows to the bytes of the output
file: the row loop, the strict-mode post-filter, the JSON dump and the
trailing newline of line 169.  An error means the run aborted with no
output written. -/
def runPipeline (rows : List Row) (today : Date) (cfg : Config) : Except String String :=
  match pipelineObjs rows today cfg with
  | .error e => .error e
  | .ok objs => .ok (renderTop objs ++ "\n")

/-- The records of a run result, `[]` for an aborted run (used to state
output invariants without an `ok` hypothesis). -/
def objsOfRun (r : Except String (List Obj × List Value × List String)) : List Obj :=
  match r with
  | .ok (objs, _, _) => objs
  | .error _ => []

/-- The record list of a pipeline result, `[]` for an aborted run. -/
def objsOfPipeline (r : Except String (List Obj)) : List Obj :=
  match r with
  | .ok objs => objs
  | .error _ => []

/-- Stripped `id` values equal under Python `==` (the sense in which two
snapshot objects could "share an id"). -/
def idEqB (a b : Obj) : Bool :=
  match strippedId a, strippedId b with
  | some x, some y => pyEq x y
  | _, _ => false

/-- The `status` field of the record a step kept, if it kept one (used
to state lifecycle conclusions without binders). -/
def keptStatus (r : Except String StepOut) : Option Value :=
  match r with
  | .ok (some o, _, _) => dictGet o "status"
  | _ => none

/-- The spec's claimed integer shape: optional leading minus sign
followed only by ASCII digits (the regex `^-?[0-9]+$`). -/
def matchesAsciiIntPattern (s : String) : Bool :=
  let t := if s.startsWith "-" then s.drop 1 else s
  decide (t ≠ "") && t.toList.all (fun c => 48 ≤ c.toNat && c.toNat ≤ 57)

/-- The shape `normalize_cell` actually converts to an integer: optional
leading minus sign followed only by decimal digits in the sense of
Python `int()` (Unicode decimals, not just ASCII). -/
def matchesDecimalIntPattern (l : List Char) : Bool :=
  let t := if l.head? = some '-' then l.tail else l
  decide (t ≠ []) && t.all pyIsDecimalChar

/-- Classifier: is this value an integer? -/
def isIntV : Value → Bool
  | .intV _ => true
  | _ => false

/-- Classifier: is this value a float? -/
def isFloatV : Value → Bool
  | .floatV _ => true
  | _ => false

/-- Rank of a status along the spec's ordering
`inactive` → `active` → `future`. -/
def statusRank (s : String) : Nat :=
  if s = "future" then 2 else if s = "active" then 1 else 0

/-- Python `a <= b` on dates (total order). -/
def dateLe (a b : Date) : Bool := !dateLt b a

/-! ## Lemmas and claim theorems -/

theorem dateLt_of_le_of_lt {d1 d2 s : Date} (h : dateLe d1 d2 = true)
    (h2 : dateLt d2 s = true) : dateLt d1 s = true := by
  simp only [dateLe, dateLt, Bool.not_eq_true', Bool.or_eq_true, Bool.and_eq_true,
    Bool.or_eq_false_iff, Bool.and_eq_false_iff, decide_eq_true_eq, decide_eq_false_iff_not] at *
  omega

theorem dateLt_of_lt_of_le {c d1 d2 : Date} (h : dateLe d1 d2 = true)
    (h2 : dateLt c d1 = true) : dateLt c d2 = true := by
  simp only [dateLe, dateLt, Bool.not_eq_true', Bool.or_eq_true, Bool.and_eq_true,
    Bool.or_eq_false_iff, Bool.and_eq_false_iff, decide_eq_true_eq, decide_eq_false_iff_not] at *
  omega

/-- C7 (amended): for a fixed record, status rank along
`inactive` → `active` → `future` is antitone in the run date: an earlier
"today" never moves the status backwards along that ordering (though it
may skip `active` entirely, see the counterexample). -/
theorem statusRank_eval (b1 b2 : Bool) :
    statusRank (if b1 = true then "future" else if b2 = true then "inactive" else "active") =
      (if b1 then 2 else if b2 then 0 else 1) := by
  cases b1 <;> cases b2 <;> decide

theorem startGate_mono {start : Option Date} {a b : Date} (hab : dateLe a b = true)
    (h : startGate start b = true) : startGate start a = true := by
  cases start with
  | none => exact absurd h (by simp [startGate])
  | some s => exact dateLt_of_le_of_lt hab h

theorem closeGate_mono {close : Option Date} {a b : Date} (hab : dateLe a b = true)
    (h : closeGate close a = true) : closeGate close b = true := by
  cases close with
  | none => exact absurd h (by simp [closeGate])
  | some c => exact dateLt_of_lt_of_le hab h

theorem c7_status_monotone (start close : Option Date) (d1 d2 : Date)
    (h : dateLe d1 d2 = true) :
    statusRank (compute_status start close d2) ≤ statusRank (compute_status start close d1) := by
  unfold compute_status
  rw [statusRank_eval (startGate start d2) (closeGate close d2),
    statusRank_eval (startGate start d1) (closeGate close d1)]
  by_cases h2 : startGate start d2 = true
  · simp [h2, startGate_mono h h2]
  · rw [Bool.not_eq_true] at h2
    by_cases h3 : closeGate close d2 = true
    · simp [h2, h3]
    · rw [Bool.not_eq_true] at h3
      have h4 : closeGate close d1 = false := by
        by_contra hx
        rw [Bool.not_eq_false] at hx
        rw [closeGate_mono h hx] at h3
        exact Bool.noConfusion h3
      by_cases h5 : startGate start d1 = true
      · simp [h2, h3, h4, h5]
      · rw [Bool.not_eq_true] at h5
        simp [h2, h3, h4, h5]

/-- C7 (counterexample): with start 2030-01-01 and close 2020-01-01, a
one-day decrease of "today" (2030-01-01 → 2029-12-31) jumps the status
directly from `inactive` to `future`, skipping the `active` step the
claim says cannot be skipped. -/
theorem c7_counterexample :
    compute_status (some ⟨2030, 1, 1⟩) (some ⟨2020, 1, 1⟩) ⟨2030, 1, 1⟩ = "inactive" ∧
    compute_status (some ⟨2030, 1, 1⟩) (some ⟨2020, 1, 1⟩) ⟨2029, 12, 31⟩ = "future" ∧
    dateLt ⟨2029, 12, 31⟩ ⟨2030, 1, 1⟩ = true ∧
    ratadie ⟨2030, 1, 1⟩ = ratadie ⟨2029, 12, 31⟩ + 1 := by
  refine ⟨by decide, by decide, by decide, by decide⟩

/-- Witness for `c7_status_monotone` at a concrete record and dates. -/
theorem c7_witness :
    dateLe ⟨2024, 1, 1⟩ ⟨2024, 6, 1⟩ = true ∧
    statusRank (compute_status (some ⟨2025, 1, 1⟩) none ⟨2024, 6, 1⟩) ≤
      statusRank (compute_status (some ⟨2025, 1, 1⟩) none ⟨2024, 1, 1⟩) :=
  ⟨by decide, c7_status_monotone (some ⟨2025, 1, 1⟩) none ⟨2024, 1, 1⟩ ⟨2024, 6, 1⟩ (by decide)⟩

/-- C8: the pipeline is deterministic — byte-identical parsed input, the
same run date and the same configuration produce a byte-identical
serialized snapshot (the embedded pipeline, including the sorted-key,
2-space-indented, newline-terminated writer, is a pure function of
those three inputs). -/
theorem c8_deterministic (rows1 rows2 : List Row) (t1 t2 : Date) (c1 c2 : Config)
    (h1 : rows1 = rows2) (h2 : t1 = t2) (h3 : c1 = c2) :
    runPipeline rows1 t1 c1 = runPipeline rows2 t2 c2 := by
  subst h1; subst h2; subst h3; rfl

set_option maxRecDepth 20000 in
/-- Witness for `c8_deterministic`: a concrete run, twice, with the
exact output bytes (sorted keys, 2-space indent, trailing newline). -/
theorem c8_witness :
    runPipeline [[("ID", some "42"), ("visible_on_app", some "1"),
        ("start_date", some "2099-01-01"), ("close_date", some "")]] ⟨2024, 1, 1⟩ defaultConfig =
      runPipeline [[("ID", some "42"), ("visible_on_app", some "1"),
        ("start_date", some "2099-01-01"), ("close_date", some "")]] ⟨2024, 1, 1⟩ defaultConfig ∧
    (runPipeline [[("ID", some "42"), ("visible_on_app", some "1"),
        ("start_date", some "2099-01-01"), ("close_date", some "")]] ⟨2024, 1, 1⟩
          defaultConfig).toOption =
      some ("[\n  \x7b\n    \"close_date\": \"\",\n    \"closing_soon\": false,\n    \"coming_soon\": false,\n    \"days_until_close\": null,\n    \"days_until_start\": 27394,\n    \"id\": 42,\n    \"start_date\": \"2099-01-01\",\n    \"status\": \"future\",\n    \"visible_on_app\": 1\n  \x7d\n]\n") :=
  ⟨c8_deterministic _ _ _ _ _ _ rfl rfl rfl, by decide⟩

/-- C9: the configuration carries the legacy-strict-mode toggle with
default OFF, and turning it ON acts as a post-annotation filter: the
strict run equals the plain run with every `status = "inactive"` record
removed, so no inactive record ever reaches the strict output. -/
theorem c9_legacy_strict_mode :
    defaultConfig.dropInactive = false ∧
    (∀ rows today w, pipelineObjs rows today ⟨w, true⟩ =
      (pipelineObjs rows today ⟨w, false⟩).map legacyStrictFilter) ∧
    (∀ rows today w,
      (objsOfPipeline (pipelineObjs rows today ⟨w, true⟩)).all
        (fun o => !decide (dictGet o "status" = some (.strV "inactive"))) = true) := by
  refine ⟨rfl, ?_, ?_⟩ <;> intro rows today w <;> unfold pipelineObjs
  · cases processRows today w [] rows with
    | error e => rfl
    | ok x => rfl
  · cases processRows today w [] rows with
    | error e => rfl
    | ok x =>
      simp only [objsOfPipeline, if_true, legacyStrictFilter, List.all_eq_true]
      intro o ho
      exact (List.mem_filter.mp ho).2

/-- C2 (counterexample): the cell text `"1.0"` normalizes to the float
`1.0`, Python `==` makes it equal to `1`, so the record **is** visible
and survives to the output — the claim says it must be invisible and
dropped. -/
theorem c2_counterexample :
    is_visible_on_app [("visible_on_app", normalize_cell (some "1.0"))] = true ∧
    (objsOfPipeline (pipelineObjs [[("ID", some "7"), ("visible_on_app", some "1.0")]]
      ⟨2024, 6, 1⟩ defaultConfig)).length = 1 := by
  refine ⟨by decide, by decide⟩

/-- C2 (amended): the visibility test accepts exactly the values whose
Python `==` class makes them equal to `1` — the integer `1`, the float
`1.0` (e.g. normalized from the cell text `"1.0"`), the boolean `True`
(unreachable from cells) — or the stripped text `"1"`; everything else
(including `0`, `"0"`, `"true"`, blank, missing) is not visible, and a
not-visible record is dropped silently: no warning, `seen_ids`
unchanged. -/
theorem c2_visibility :
    (∀ obj : Obj, is_visible_on_app obj = true ↔
      (numVal (visValue obj) = some 1 ∨ visValue obj = .strV "1")) ∧
    (∀ (today : Date) (w : Int) (seen : List Value) (row : Row),
      blankRow row = false → is_visible_on_app (assembleObj row) = false →
      stepRow today w seen row = .ok (none, seen, [])) := by
  constructor
  · intro obj
    unfold is_visible_on_app
    cases h : visValue obj with
    | NoneV => simp [pyEq, numVal]
    | boolV b => cases b <;> simp [pyEq, numVal]
    | intV n => simp [pyEq, numVal]
    | floatV q => simp [pyEq, numVal]
    | strV s => simp [pyEq, numVal]
  · intro today w seen row h1 h2
    unfold stepRow
    simp [h1, h2]

/-- Witness for `c2_visibility`: the cell `"true"` is not visible and
its row is dropped silently. -/
theorem c2_witness :
    (is_visible_on_app [("visible_on_app", Value.strV "true")] = true ↔
      (numVal (visValue [("visible_on_app", Value.strV "true")]) = some 1 ∨
        visValue [("visible_on_app", Value.strV "true")] = .strV "1")) ∧
    stepRow ⟨2024, 6, 1⟩ 60 [] [("ID", some "7"), ("visible_on_app", some "true")] =
      .ok (none, [], []) :=
  ⟨c2_visibility.1 _,
   c2_visibility.2 ⟨2024, 6, 1⟩ 60 [] [("ID", some "7"), ("visible_on_app", some "true")]
     (by decide) (by decide)⟩

/-- C1 (counterexample): a visible row with id `"1"` and start-date cell
`"oops"` aborts the whole run — the strict parse raises instead of
treating the start as "no date". -/
theorem c1_counterexample :
    (runPipeline [[("ID", some "1"), ("visible_on_app", some "1"),
      ("start_date", some "oops")]] ⟨2024, 6, 1⟩ defaultConfig).isOk = false := by
  rfl

/-- C4 (counterexample): the visible row with id cell `"0"` — non-empty
after trimming — is dropped with the missing-id warning, because the
cell normalizes to the integer `0`, which is falsy in Python. -/
theorem c4_counterexample :
    is_visible_on_app (assembleObj [("ID", some "0"), ("visible_on_app", some "1")]) = true ∧
    pyStrip "0" ≠ "" ∧
    stepRow ⟨2024, 6, 1⟩ 60 [] [("ID", some "0"), ("visible_on_app", some "1")] =
      .ok (none, [], [missingIdMsg]) := by
  refine ⟨by decide, by decide, by rfl⟩

/-- C3 (counterexample): the one-character cell `"٣"` (U+0663,
ARABIC-INDIC DIGIT THREE) does not match the spec's ASCII regex
`^-?[0-9]+$`, yet `normalize_cell` classifies it as the integer 3 (and
not as text), because `str.isdigit` and `int()` accept Unicode decimal
digits. -/
theorem c3_counterexample :
    normalize_cell (some "٣") = .intV 3 ∧
    matchesAsciiIntPattern (pyStrip "٣") = false := by
  refine ⟨by rfl, by decide⟩

theorem dropWhile_of_dropWhile_eq_self {p : Char → Bool} {x : List Char}
    (hx : x.dropWhile p = x) :
    (List.rdropWhile p x).dropWhile p = List.rdropWhile p x := by
  obtain ⟨t, ht⟩ := List.rdropWhile_prefix p x
  cases hs : List.rdropWhile p x with
  | nil => simp
  | cons c cs =>
    rw [hs] at ht
    have hx2 := hx
    rw [← ht] at hx2
    have hc : p c = false := by
      by_contra hpc
      rw [Bool.not_eq_false] at hpc
      rw [List.cons_append, List.dropWhile_cons_of_pos hpc] at hx2
      have hlen : (List.dropWhile p (cs ++ t)).length = (cs ++ t).length + 1 := by
        rw [hx2]
        simp
      have hle := (@List.dropWhile_sublist Char (cs ++ t) p).length_le
      omega
    simp [List.dropWhile_cons, hc]

theorem stripChars_idem (l : List Char) : stripChars (stripChars l) = stripChars l := by
  have e : ∀ x : List Char,
      stripChars x = List.rdropWhile pyIsSpaceChar (x.dropWhile pyIsSpaceChar) :=
    fun x => rfl
  rw [e, e]
  rw [dropWhile_of_dropWhile_eq_self (List.dropWhile_idempotent _ _),
    List.rdropWhile_idempotent]

theorem stripChars_toList_pyStrip (s : String) :
    (pyStrip s).toList = stripChars s.toList := rfl

theorem pyStrip_idem (s : String) : pyStrip (pyStrip s) = pyStrip s :=
  congrArg String.mk (stripChars_idem s.toList)

theorem dictGet_dictSet_eq (o : Obj) (k : String) (v : Value) :
    dictGet (dictSet o k v) k = some v := by
  induction o with
  | nil => simp [dictSet, dictGet]
  | cons kv rest ih =>
    obtain ⟨k0, v0⟩ := kv
    by_cases h : k0 = k <;> simp [dictSet, dictGet, h, ih]

theorem dictGet_dictSet_ne (o : Obj) (k k2 : String) (v : Value) (h : k2 ≠ k) :
    dictGet (dictSet o k2 v) k = dictGet o k := by
  have h2 : ¬(k2 = k) := h
  have h3 : ¬(k = k2) := fun he => h he.symm
  induction o with
  | nil => simp [dictSet, dictGet, h2]
  | cons kv rest ih =>
    obtain ⟨k0, v0⟩ := kv
    by_cases h0 : k0 = k2
    · subst h0
      simp [dictSet, dictGet, h2]
    · by_cases hk : k0 = k
      · subst hk
        simp [dictSet, dictGet, h0, h3, ih]
      · simp [dictSet, dictGet, h0, hk, ih]

theorem dictGet_annotateObj_id (obj : Obj) (start close : Option Date) (cr : String)
    (today : Date) (w : Int) :
    dictGet (annotateObj obj start close cr today w) "id" = dictGet obj "id" := by
  unfold annotateObj
  rw [dictGet_dictSet_ne _ _ _ _ (by decide), dictGet_dictSet_ne _ _ _ _ (by decide),
    dictGet_dictSet_ne _ _ _ _ (by decide), dictGet_dictSet_ne _ _ _ _ (by decide),
    dictGet_dictSet_ne _ _ _ _ (by decide), dictGet_dictSet_ne _ _ _ _ (by decide),
    dictGet_dictSet_ne _ _ _ _ (by decide)]

theorem dictGet_annotateObj_status (obj : Obj) (start close : Option Date) (cr : String)
    (today : Date) (w : Int) :
    dictGet (annotateObj obj start close cr today w) "status" =
      some (.strV (compute_status start close today)) := by
  unfold annotateObj
  rw [dictGet_dictSet_ne _ _ _ _ (by decide), dictGet_dictSet_ne _ _ _ _ (by decide),
    dictGet_dictSet_ne _ _ _ _ (by decide), dictGet_dictSet_ne _ _ _ _ (by decide),
    dictGet_dictSet_eq]

theorem pyEq_symm (a b : Value) : pyEq a b = pyEq b a := by
  unfold pyEq
  cases a <;> cases b <;> simp [numVal] <;>
    exact eq_comm

theorem pyMem_append_single (v w : Value) (seen : List Value) :
    pyMem v (seen ++ [w]) = (pyMem v seen || pyEq v w) := by
  simp [pyMem, List.any_append]

theorem dupMsg_ne_missingIdMsg (v : Value) : dupMsg v ≠ missingIdMsg := by
  intro h
  have h2 : (dupMsg v).data.head? = (missingIdMsg).data.head? := by rw [h]
  have e1 : (dupMsg v).data.head? = some 'D' := rfl
  have e2 : (missingIdMsg).data.head? = some 'R' := rfl
  rw [e1, e2] at h2
  simp at h2

theorem stepRow_dropped {today : Date} {w : Int} {seen : List Value} {row : Row}
    {seen2 : List Value} {ws : List String}
    (h : stepRow today w seen row = .ok (none, seen2, ws)) : seen2 = seen := by
  unfold stepRow at h
  by_cases hb : blankRow row = true
  · rw [if_pos hb] at h
    simp only [Except.ok.injEq, Prod.mk.injEq] at h
    exact h.2.1.symm
  · rw [if_neg hb] at h
    by_cases hv : is_visible_on_app (assembleObj row) = true
    · rw [if_pos hv] at h
      unfold idStage at h
      by_cases hid : pyTruthyOpt (strippedId (assembleObj row)) = true
      · rw [if_pos hid] at h
        unfold dupStage at h
        by_cases hm : pyMem ((strippedId (assembleObj row)).getD .NoneV) seen = true
        · rw [if_pos hm] at h
          simp only [Except.ok.injEq, Prod.mk.injEq] at h
          exact h.2.1.symm
        · rw [if_neg hm] at h
          unfold annotateStage at h
          cases hcs : computeStart (assembleObj row) with
          | error e => simp [hcs] at h
          | ok st =>
            cases hcc : computeClose (assembleObj row) with
            | error e => simp [hcs, hcc] at h
            | ok cl => simp [hcs, hcc] at h
      · rw [if_neg hid] at h
        simp only [Except.ok.injEq, Prod.mk.injEq] at h
        exact h.2.1.symm
    · rw [if_neg hv] at h
      simp only [Except.ok.injEq, Prod.mk.injEq] at h
      exact h.2.1.symm

theorem stepRow_kept {today : Date} {w : Int} {seen : List Value} {row : Row}
    {o : Obj} {seen2 : List Value} {ws : List String}
    (h : stepRow today w seen row = .ok (some o, seen2, ws)) :
    pyTruthyOpt (strippedId (assembleObj row)) = true ∧
    pyMem ((strippedId (assembleObj row)).getD .NoneV) seen = false ∧
    seen2 = seen ++ [(strippedId (assembleObj row)).getD .NoneV] ∧
    dictGet o "id" = dictGet (assembleObj row) "id" ∧ ws = [] := by
  unfold stepRow at h
  by_cases hb : blankRow row = true
  · rw [if_pos hb] at h
    simp at h
  · rw [if_neg hb] at h
    by_cases hv : is_visible_on_app (assembleObj row) = true
    · rw [if_pos hv] at h
      unfold idStage at h
      by_cases hid : pyTruthyOpt (strippedId (assembleObj row)) = true
      · rw [if_pos hid] at h
        unfold dupStage at h
        by_cases hm : pyMem ((strippedId (assembleObj row)).getD .NoneV) seen = true
        · rw [if_pos hm] at h
          simp at h
        · rw [if_neg hm] at h
          unfold annotateStage at h
          cases hcs : computeStart (assembleObj row) with
          | error e => simp [hcs] at h
          | ok st =>
            cases hcc : computeClose (assembleObj row) with
            | error e => simp [hcs, hcc] at h
            | ok cl =>
              simp only [hcs, hcc, Except.ok.injEq, Prod.mk.injEq, Option.some.injEq] at h
              obtain ⟨h1, h2, h3⟩ := h
              refine ⟨hid, by simpa using hm, h2.symm, ?_, h3.symm⟩
              rw [← h1, dictGet_annotateObj_id]
      · rw [if_neg hid] at h
        simp at h
    · rw [if_neg hv] at h
      simp at h

/-- C4 (amended): under visibility, the identity check drops the record
with the missing-id warning exactly when the stripped id is Python-falsy
(absent, empty text, zero); a truthy id continues to the uniqueness
check instead. -/
theorem c4_identity_check (today : Date) (w : Int) (seen : List Value) (row : Row)
    (hb : blankRow row = false)
    (hv : is_visible_on_app (assembleObj row) = true) :
    stepRow today w seen row = .ok (none, seen, [missingIdMsg]) ↔
      pyTruthyOpt (strippedId (assembleObj row)) = false := by
  unfold stepRow
  rw [if_neg (by simp [hb]), if_pos hv]
  unfold idStage
  constructor
  · intro h
    by_contra hx
    rw [Bool.not_eq_false] at hx
    rw [if_pos hx] at h
    unfold dupStage at h
    by_cases hm : pyMem ((strippedId (assembleObj row)).getD .NoneV) seen = true
    · rw [if_pos hm] at h
      simp only [Except.ok.injEq, Prod.mk.injEq] at h
      exact dupMsg_ne_missingIdMsg _ (by simpa using h.2.2)
    · rw [if_neg hm] at h
      unfold annotateStage at h
      cases hcs : computeStart (assembleObj row) with
      | error e => simp [hcs] at h
      | ok st =>
        cases hcc : computeClose (assembleObj row) with
        | error e => simp [hcs, hcc] at h
        | ok cl => simp [hcs, hcc] at h
  · intro h
    rw [if_neg (by simp [h])]

/-- Witness for `c4_identity_check` at a visible row with id `"x1"`. -/
theorem c4_witness :
    stepRow ⟨2024, 6, 1⟩ 60 [] [("ID", some "x1"), ("visible_on_app", some "1")] =
        .ok (none, [], [missingIdMsg]) ↔
      pyTruthyOpt (strippedId
        (assembleObj [("ID", some "x1"), ("visible_on_app", some "1")])) = false :=
  c4_identity_check ⟨2024, 6, 1⟩ 60 [] [("ID", some "x1"), ("visible_on_app", some "1")]
    (by decide) (by decide)

/-- C6: a close-date cell that is blank, `none` in any letter case, or
the sentinel `2099-12-31` yields no close date (lines 136–138), and a
visible, valid record with such a close date and a start date not in the
future is kept with status `active`. -/
theorem c6_open_ended_close (today : Date) (w : Int) (seen : List Value) (row : Row)
    (cell : String) (s : Date)
    (hb : blankRow row = false)
    (hv : is_visible_on_app (assembleObj row) = true)
    (hid : pyTruthyOpt (strippedId (assembleObj row)) = true)
    (hm : pyMem ((strippedId (assembleObj row)).getD .NoneV) seen = false)
    (hc : dictGet (assembleObj row) "close_date" = some (normalize_cell (some cell)))
    (hph : stripChars cell.toList = [] ∨
      lowerChars (stripChars cell.toList) = "none".toList ∨
      stripChars cell.toList = "2099-12-31".toList)
    (hcs : computeStart (assembleObj row) = .ok (some s))
    (hpast : dateLt today s = false) :
    computeClose (assembleObj row) = .ok none ∧
    keptStatus (stepRow today w seen row) = some (.strV "active") := by
  have e : normalize_cell (some cell) =
      (if stripChars cell.toList = [] then Value.strV ""
       else if lowerChars (stripChars cell.toList) = "none".toList then Value.strV "none"
       else if intGuard (stripChars cell.toList) then
         (match pyIntOfChars (stripChars cell.toList) with
          | some n => Value.intV n
          | none => floatBranch (stripChars cell.toList))
       else floatBranch (stripChars cell.toList)) := rfl
  have hval : normalize_cell (some cell) = .strV "" ∨
      normalize_cell (some cell) = .strV "none" ∨
      normalize_cell (some cell) = .strV "2099-12-31" := by
    rcases hph with h1 | h2 | h3
    · left
      rw [e, if_pos h1]
    · right; left
      have hne : stripChars cell.toList ≠ [] := by
        intro hz
        rw [hz] at h2
        simp [lowerChars] at h2
      rw [e, if_neg hne, if_pos h2]
    · right; right
      rw [e, if_neg (by rw [h3]; decide), if_neg (by rw [h3]; decide),
        if_neg (by rw [h3]; decide)]
      rw [h3]
      decide
  have hcr : closeRawOf (assembleObj row) = "" ∨ closeRawOf (assembleObj row) = "none" ∨
      closeRawOf (assembleObj row) = "2099-12-31" := by
    unfold closeRawOf
    rw [hc]
    rcases hval with h | h | h <;> rw [h]
    · left; decide
    · right; left; decide
    · right; right; decide
  have e2 : computeClose (assembleObj row) =
      (if closeRawOf (assembleObj row) ≠ "" ∧
          openEndedPlaceholder (closeRawOf (assembleObj row)) = false ∧
          pyLower (closeRawOf (assembleObj row)) ≠ "none" then
        parse_date (closeRawOf (assembleObj row))
       else .ok none) := rfl
  have hclose : computeClose (assembleObj row) = .ok none := by
    rcases hcr with h | h | h <;> rw [e2, h] <;> rw [if_neg (by decide)]
  refine ⟨hclose, ?_⟩
  unfold stepRow
  rw [if_neg (by simp [hb]), if_pos hv]
  unfold idStage
  rw [if_pos hid]
  unfold dupStage
  rw [if_neg (by simp [hm])]
  unfold annotateStage
  simp only [hcs, hclose]
  unfold keptStatus
  simp only [dictGet_annotateObj_status]
  unfold compute_status
  have hsg : startGate (some s) today = false := hpast
  rw [hsg]
  simp [closeGate]

/-- Witness for `c6_open_ended_close`: a concrete visible row with close
cell `2099-12-31` and a past start, kept as `active`. -/
theorem c6_witness :
    computeClose (assembleObj [("ID", some "1"), ("visible_on_app", some "1"),
        ("start_date", some "2020-01-01"), ("close_date", some "2099-12-31")]) = .ok none ∧
    keptStatus (stepRow ⟨2024, 6, 1⟩ 60 [] [("ID", some "1"), ("visible_on_app", some "1"),
        ("start_date", some "2020-01-01"), ("close_date", some "2099-12-31")]) =
      some (.strV "active") :=
  c6_open_ended_close ⟨2024, 6, 1⟩ 60 []
    [("ID", some "1"), ("visible_on_app", some "1"),
      ("start_date", some "2020-01-01"), ("close_date", some "2099-12-31")]
    "2099-12-31" ⟨2020, 1, 1⟩ (by decide) (by decide) (by decide) (by decide) (by decide)
    (Or.inr (Or.inr (by decide))) (by rfl) (by decide)

theorem processRows_ids (today : Date) (w : Int) (rows : List Row) :
    ∀ (seen : List Value) (objs : List Obj) (seenF : List Value) (ws : List String),
      processRows today w seen rows = .ok (objs, seenF, ws) →
      (∀ o ∈ objs, ∃ v, strippedId o = some v ∧ pyMem v seen = false) ∧
      List.Pairwise (fun a b => idEqB a b = false) objs := by
  induction rows with
  | nil =>
    intro seen objs seenF ws h
    simp only [processRows, Except.ok.injEq, Prod.mk.injEq] at h
    obtain ⟨h1, _, _⟩ := h
    constructor
    · intro o ho
      rw [← h1] at ho
      simp at ho
    · rw [← h1]
      exact List.Pairwise.nil
  | cons r rest ih =>
    intro seen objs seenF ws h
    rw [show processRows today w seen (r :: rest) =
        (match stepRow today w seen r with
         | .error e => .error e
         | .ok (kept, seen2, ws1) =>
           match processRows today w seen2 rest with
           | .error e => .error e
           | .ok (objs2, seenF2, wsRest) =>
             .ok ((match kept with | some o => o :: objs2 | none => objs2), seenF2,
               ws1 ++ wsRest)) from rfl] at h
    cases hstep : stepRow today w seen r with
    | error e =>
      simp only [hstep] at h
      exact absurd h (by simp)
    | ok trip =>
      obtain ⟨kept, seen2, ws1⟩ := trip
      simp only [hstep] at h
      cases hrest : processRows today w seen2 rest with
      | error e =>
        simp only [hrest] at h
        exact absurd h (by simp)
      | ok trip2 =>
        obtain ⟨objs2, seenF2, wsRest⟩ := trip2
        simp only [hrest] at h
        cases kept with
        | none =>
          simp only [Except.ok.injEq, Prod.mk.injEq] at h
          obtain ⟨hobjs, hseens, hws⟩ := h
          have hseen2 := stepRow_dropped hstep
          rw [hseen2] at hrest
          rw [← hobjs]
          exact ih seen objs2 seenF2 wsRest hrest
        | some o =>
          simp only [Except.ok.injEq, Prod.mk.injEq] at h
          obtain ⟨hobjs, hseens, hws⟩ := h
          obtain ⟨hid, hmem, hseen2, hidpres, hws1⟩ := stepRow_kept hstep
          subst hseen2
          obtain ⟨ihA, ihB⟩ :=
            ih (seen ++ [(strippedId (assembleObj r)).getD .NoneV]) objs2 seenF2 wsRest hrest
          have hsome : strippedId (assembleObj r) =
              some ((strippedId (assembleObj r)).getD .NoneV) := by
            cases hx : strippedId (assembleObj r) with
            | none =>
              rw [hx] at hid
              simp [pyTruthyOpt] at hid
            | some s0 => rfl
          have hoid : strippedId o = some ((strippedId (assembleObj r)).getD .NoneV) := by
            show (dictGet o "id").map _ = _
            rw [hidpres]
            exact hsome
          subst hobjs
          constructor
          · intro o2 ho2
            rcases List.mem_cons.mp ho2 with he | ht
            · subst he
              exact ⟨_, hoid, hmem⟩
            · obtain ⟨v2, hv2, hmem2⟩ := ihA o2 ht
              rw [pyMem_append_single] at hmem2
              exact ⟨v2, hv2, (Bool.or_eq_false_iff.mp hmem2).1⟩
          · refine List.Pairwise.cons ?_ ihB
            intro o2 ho2
            obtain ⟨v2, hv2, hmem2⟩ := ihA o2 ho2
            rw [pyMem_append_single] at hmem2
            have hne := (Bool.or_eq_false_iff.mp hmem2).2
            unfold idEqB
            rw [hoid, hv2]
            show pyEq _ v2 = false
            rw [pyEq_symm]
            exact hne

/-- C5: no two records of the final output share an id — the stripped
ids of the surviving records are pairwise unequal under Python `==` —
and a visible, valid row whose stripped id is already in `seen_ids` is
dropped with the duplicate warning and no state change, so the
first-seen row wins. -/
theorem c5_unique_ids :
    (∀ (rows : List Row) (today : Date) (w : Int),
      List.Pairwise (fun a b => idEqB a b = false)
        (objsOfRun (processRows today w [] rows))) ∧
    (∀ (today : Date) (w : Int) (seen : List Value) (row : Row),
      blankRow row = false →
      is_visible_on_app (assembleObj row) = true →
      pyTruthyOpt (strippedId (assembleObj row)) = true →
      pyMem ((strippedId (assembleObj row)).getD .NoneV) seen = true →
      stepRow today w seen row =
        .ok (none, seen, [dupMsg ((strippedId (assembleObj row)).getD .NoneV)])) := by
  constructor
  · intro rows today w
    cases h : processRows today w [] rows with
    | error e => simp [objsOfRun]
    | ok trip =>
      obtain ⟨objs, seenF, ws⟩ := trip
      have h2 := (processRows_ids today w rows [] objs seenF ws h).2
      simpa [objsOfRun] using h2
  · intro today w seen row hb hv hid hm
    unfold stepRow
    rw [if_neg (by simp [hb]), if_pos hv]
    unfold idStage
    rw [if_pos hid]
    unfold dupStage
    rw [if_pos hm]

/-- Witness for `c5_unique_ids`: two visible rows with id 9 — the run
output is duplicate-free, and the second row hits the duplicate drop
with its warning. -/
theorem c5_witness :
    List.Pairwise (fun a b => idEqB a b = false)
      (objsOfRun (processRows ⟨2024, 6, 1⟩ 60 []
        [[("ID", some "9"), ("visible_on_app", some "1")],
         [("ID", some "9"), ("visible_on_app", some "1")]])) ∧
    stepRow ⟨2024, 6, 1⟩ 60 [Value.intV 9] [("ID", some "9"), ("visible_on_app", some "1")] =
      .ok (none, [Value.intV 9],
        [dupMsg ((strippedId
          (assembleObj [("ID", some "9"), ("visible_on_app", some "1")])).getD .NoneV)]) :=
  ⟨c5_unique_ids.1 _ _ _,
   c5_unique_ids.2 ⟨2024, 6, 1⟩ 60 [Value.intV 9]
     [("ID", some "9"), ("visible_on_app", some "1")]
     (by decide) (by decide) (by decide) (by decide)⟩

theorem processRows_nil (today : Date) (w : Int) (seen : List Value) :
    processRows today w seen [] = .ok ([], seen, []) := rfl

theorem processRows_cons (today : Date) (w : Int) (seen : List Value) (r : Row)
    (rest : List Row) :
    processRows today w seen (r :: rest) =
      (match stepRow today w seen r with
       | .error e => .error e
       | .ok (kept, seen2, ws1) =>
         match processRows today w seen2 rest with
         | .error e => .error e
         | .ok (objs2, seenF2, wsRest) =>
           .ok ((match kept with | some o => o :: objs2 | none => objs2), seenF2,
             ws1 ++ wsRest)) := rfl

theorem processRows_prefix_error (today : Date) (w : Int) (pre : List Row) :
    ∀ (tail : List Row) (seen0 seen : List Value) (objs : List Obj) (ws : List String),
      processRows today w seen0 pre = .ok (objs, seen, ws) →
      (processRows today w seen tail).isOk = false →
      (processRows today w seen0 (pre ++ tail)).isOk = false := by
  induction pre with
  | nil =>
    intro tail seen0 seen objs ws h htail
    rw [processRows_nil] at h
    simp only [Except.ok.injEq, Prod.mk.injEq] at h
    obtain ⟨_, h2, _⟩ := h
    rw [List.nil_append, h2]
    exact htail
  | cons r rest ih =>
    intro tail seen0 seen objs ws h htail
    rw [processRows_cons] at h
    rw [List.cons_append, processRows_cons]
    cases hstep : stepRow today w seen0 r with
    | error e =>
      simp only [hstep] at h
      exact absurd h (by simp)
    | ok trip =>
      obtain ⟨kept, seen2, ws1⟩ := trip
      simp only [hstep] at h ⊢
      cases hrest : processRows today w seen2 rest with
      | error e =>
        simp only [hrest] at h
        exact absurd h (by simp)
      | ok trip2 =>
        obtain ⟨objs2, seenF2, ws2⟩ := trip2
        simp only [hrest] at h
        simp only [Except.ok.injEq, Prod.mk.injEq] at h
        obtain ⟨_, hseq, _⟩ := h
        have hres := ih tail seen2 seenF2 objs2 ws2 hrest (by rw [hseq]; exact htail)
        cases hx : processRows today w seen2 (rest ++ tail) with
        | error e => simp [Except.isOk, Except.toBool]
        | ok t =>
          rw [hx] at hres
          simp [Except.isOk, Except.toBool] at hres

theorem stepRow_error_of_start (today : Date) (w : Int) (seen : List Value) (row : Row)
    (e : String)
    (hb : blankRow row = false) (hv : is_visible_on_app (assembleObj row) = true)
    (hid : pyTruthyOpt (strippedId (assembleObj row)) = true)
    (hm : pyMem ((strippedId (assembleObj row)).getD .NoneV) seen = false)
    (hstart : computeStart (assembleObj row) = .error e) :
    stepRow today w seen row = .error e := by
  unfold stepRow
  rw [if_neg (by simp [hb]), if_pos hv]
  unfold idStage
  rw [if_pos hid]
  unfold dupStage
  rw [if_neg (by simp [hm])]
  unfold annotateStage
  simp only [hstart]

theorem stepRow_error_of_close (today : Date) (w : Int) (seen : List Value) (row : Row)
    (st : Option Date) (e : String)
    (hb : blankRow row = false) (hv : is_visible_on_app (assembleObj row) = true)
    (hid : pyTruthyOpt (strippedId (assembleObj row)) = true)
    (hm : pyMem ((strippedId (assembleObj row)).getD .NoneV) seen = false)
    (hstart : computeStart (assembleObj row) = .ok st)
    (hclose : computeClose (assembleObj row) = .error e) :
    stepRow today w seen row = .error e := by
  unfold stepRow
  rw [if_neg (by simp [hb]), if_pos hv]
  unfold idStage
  rw [if_pos hid]
  unfold dupStage
  rw [if_neg (by simp [hm])]
  unfold annotateStage
  simp only [hstart, hclose]

theorem parse_date_error_of_invalid {s : String}
    (h1 : stripChars s.toList ≠ [])
    (h2 : lowerChars (stripChars s.toList) ≠ "none".toList)
    (h3 : parseYMD (stripChars s.toList) = none) :
    parse_date s = .error ("time data '" ++ String.mk (stripChars s.toList) ++
      "' does not match format '%Y-%m-%d'") := by
  unfold parse_date
  rw [if_neg (by simp only [not_or]; exact ⟨h1, h2⟩), h3]

theorem string_eq_of_data {a b : String} (h : a.data = b.data) : a = b := by
  cases a
  cases b
  exact congrArg String.mk h

theorem runPipeline_isOk_false_of_step_error (rows : List Row) (today : Date) (w : Int)
    (b : Bool) (hmain : (processRows today w [] rows).isOk = false) :
    (runPipeline rows today ⟨w, b⟩).isOk = false := by
  unfold runPipeline pipelineObjs
  rw [show ((⟨w, b⟩ : Config)).windowDays = w from rfl]
  cases hx : processRows today w [] rows with
  | error e => rfl
  | ok t =>
    rw [hx] at hmain
    simp [Except.isOk, Except.toBool] at hmain

/-- C1 (amended): a surviving row (visible, truthy fresh id) whose
trimmed start-date text is non-empty, not `none`, and fails the strict
`YYYY-MM-DD` parse makes the whole run abort: `runPipeline` yields no
output for any row list containing such a row after a successfully
processed prefix. -/
theorem c1_start_parse_error_aborts (pre rest : List Row) (row : Row) (today : Date)
    (w : Int) (b : Bool) (objs : List Obj) (seen : List Value) (ws : List String)
    (hpre : processRows today w [] pre = .ok (objs, seen, ws))
    (hb : blankRow row = false)
    (hv : is_visible_on_app (assembleObj row) = true)
    (hid : pyTruthyOpt (strippedId (assembleObj row)) = true)
    (hm : pyMem ((strippedId (assembleObj row)).getD .NoneV) seen = false)
    (h1 : stripChars (startRawOf (assembleObj row)).toList ≠ [])
    (h2 : lowerChars (stripChars (startRawOf (assembleObj row)).toList) ≠ "none".toList)
    (h3 : parseYMD (stripChars (startRawOf (assembleObj row)).toList) = none) :
    (runPipeline (pre ++ row :: rest) today ⟨w, b⟩).isOk = false := by
  have hstart : computeStart (assembleObj row) = .error
      ("time data '" ++ String.mk (stripChars (startRawOf (assembleObj row)).toList) ++
        "' does not match format '%Y-%m-%d'") := by
    unfold computeStart
    exact parse_date_error_of_invalid h1 h2 h3
  have hstep := stepRow_error_of_start today w seen row _ hb hv hid hm hstart
  have htail : (processRows today w seen (row :: rest)).isOk = false := by
    rw [processRows_cons]
    simp only [hstep]
    rfl
  exact runPipeline_isOk_false_of_step_error _ _ _ _
    (processRows_prefix_error today w pre (row :: rest) [] seen objs ws hpre htail)

/-- Witness for `c1_start_parse_error_aborts`: a visible row with id 7
and start-date cell `2020-13-05` (month 13) aborts the run. -/
theorem c1_witness :
    (runPipeline ([] ++ [("ID", some "7"), ("visible_on_app", some "1"),
        ("start_date", some "2020-13-05")] :: []) ⟨2024, 6, 1⟩ ⟨60, false⟩).isOk = false :=
  c1_start_parse_error_aborts [] [] [("ID", some "7"), ("visible_on_app", some "1"),
      ("start_date", some "2020-13-05")] ⟨2024, 6, 1⟩ 60 false [] [] []
    (by rfl) (by decide) (by decide) (by decide) (by decide)
    (by decide) (by decide) (by decide)

/-- C10: a surviving row whose trimmed close text is non-empty, not an
open-ended placeholder, not `none`, and fails the strict `YYYY-MM-DD`
parse (while the start parse succeeded) makes the whole run abort with
no output written. -/
theorem c10_close_parse_error_aborts (pre rest : List Row) (row : Row) (today : Date)
    (w : Int) (b : Bool) (objs : List Obj) (seen : List Value) (ws : List String)
    (st : Option Date)
    (hpre : processRows today w [] pre = .ok (objs, seen, ws))
    (hb : blankRow row = false)
    (hv : is_visible_on_app (assembleObj row) = true)
    (hid : pyTruthyOpt (strippedId (assembleObj row)) = true)
    (hm : pyMem ((strippedId (assembleObj row)).getD .NoneV) seen = false)
    (hstart : computeStart (assembleObj row) = .ok st)
    (hcr1 : closeRawOf (assembleObj row) ≠ "")
    (hcr2 : openEndedPlaceholder (closeRawOf (assembleObj row)) = false)
    (hcr4 : pyLower (closeRawOf (assembleObj row)) ≠ "none")
    (hcr5 : parseYMD (closeRawOf (assembleObj row)).toList = none) :
    (runPipeline (pre ++ row :: rest) today ⟨w, b⟩).isOk = false := by
  have hidm : stripChars (closeRawOf (assembleObj row)).toList =
      (closeRawOf (assembleObj row)).toList := by
    show stripChars (stripChars (orEmptyStr
      (dictGet (assembleObj row) "close_date")).toList) = _
    exact stripChars_idem _
  have hclose : computeClose (assembleObj row) = .error
      ("time data '" ++ String.mk (stripChars (closeRawOf (assembleObj row)).toList) ++
        "' does not match format '%Y-%m-%d'") := by
    unfold computeClose
    rw [if_pos ⟨hcr1, hcr2, hcr4⟩]
    refine parse_date_error_of_invalid ?_ ?_ ?_
    · rw [hidm]
      intro hz
      exact hcr1 (string_eq_of_data hz)
    · rw [hidm]
      intro hz
      exact hcr4 (string_eq_of_data hz)
    · rw [hidm]
      exact hcr5
  have hstep := stepRow_error_of_close today w seen row st _ hb hv hid hm hstart hclose
  have htail : (processRows today w seen (row :: rest)).isOk = false := by
    rw [processRows_cons]
    simp only [hstep]
    rfl
  exact runPipeline_isOk_false_of_step_error _ _ _ _
    (processRows_prefix_error today w pre (row :: rest) [] seen objs ws hpre htail)

/-- Witness for `c10_close_parse_error_aborts`: a visible row with id 3,
no start date and close-date cell `oops` aborts the run. -/
theorem c10_witness :
    (runPipeline ([] ++ [("ID", some "3"), ("visible_on_app", some "1"),
        ("close_date", some "oops")] :: []) ⟨2024, 6, 1⟩ ⟨60, false⟩).isOk = false :=
  c10_close_parse_error_aborts [] [] [("ID", some "3"), ("visible_on_app", some "1"),
      ("close_date", some "oops")] ⟨2024, 6, 1⟩ 60 false [] [] [] none
    (by rfl) (by decide) (by decide) (by decide) (by decide)
    (by rfl) (by decide) (by decide) (by decide) (by decide)

theorem normalize_cell_some_eq (v : String) :
    normalize_cell (some v) =
      (if stripChars v.toList = [] then Value.strV ""
       else if lowerChars (stripChars v.toList) = "none".toList then Value.strV "none"
       else if intGuard (stripChars v.toList) then
         (match pyIntOfChars (stripChars v.toList) with
          | some n => Value.intV n
          | none => floatBranch (stripChars v.toList))
       else floatBranch (stripChars v.toList)) := rfl

theorem pyIntOfChars_eq (l : List Char) (hst : stripChars l = l) :
    pyIntOfChars l =
      (if (if l.head? = some '-' ∨ l.head? = some '+' then l.tail else l) ≠ [] ∧
          (if l.head? = some '-' ∨ l.head? = some '+' then l.tail else l).all pyIsDecimalChar
       then
         some ((if l.head? = some '-' then (-1 : Int) else 1) *
           (digitsVal (if l.head? = some '-' ∨ l.head? = some '+' then l.tail else l) : Int))
       else none) := by
  rw [show pyIntOfChars l =
      (if (if (stripChars l).head? = some '-' ∨ (stripChars l).head? = some '+'
            then (stripChars l).tail else stripChars l) ≠ [] ∧
          (if (stripChars l).head? = some '-' ∨ (stripChars l).head? = some '+'
            then (stripChars l).tail else stripChars l).all pyIsDecimalChar
       then
         some ((if (stripChars l).head? = some '-' then (-1 : Int) else 1) *
           (digitsVal (if (stripChars l).head? = some '-' ∨ (stripChars l).head? = some '+'
             then (stripChars l).tail else stripChars l) : Int))
       else none) from rfl, hst]

theorem all_digit_of_all_decimal {l : List Char} (h : l.all pyIsDecimalChar = true) :
    l.all pyIsDigitChar = true := by
  rw [List.all_eq_true] at h ⊢
  intro c hc
  have h2 := h c hc
  simp [pyIsDigitChar, h2]

theorem head_not_plus_of_all_decimal {c : Char} {cs : List Char}
    (h : (c :: cs).all pyIsDecimalChar = true) :
    ¬((c :: cs).head? = some '-' ∨ (c :: cs).head? = some '+') := by
  rw [List.all_cons, Bool.and_eq_true] at h
  intro hd
  rcases hd with hd | hd <;> simp only [List.head?_cons, Option.some.injEq] at hd <;>
    rw [hd] at h <;> exact absurd h.1 (by decide)

theorem pattern_guard {l : List Char} (h : matchesDecimalIntPattern l = true) :
    intGuard l = true := by
  simp only [matchesDecimalIntPattern] at h
  by_cases hm : l.head? = some '-'
  · rw [if_pos hm] at h
    simp only [Bool.and_eq_true, decide_eq_true_eq] at h
    unfold intGuard pyIsDigitL
    simp [hm, h.1, all_digit_of_all_decimal h.2]
  · rw [if_neg hm] at h
    simp only [Bool.and_eq_true, decide_eq_true_eq] at h
    unfold intGuard pyIsDigitL
    simp [h.1, all_digit_of_all_decimal h.2]

theorem pattern_parse_some {l : List Char} (hst : stripChars l = l)
    (h : matchesDecimalIntPattern l = true) : ∃ m, pyIntOfChars l = some m := by
  simp only [matchesDecimalIntPattern] at h
  rw [pyIntOfChars_eq l hst]
  by_cases hm : l.head? = some '-'
  · rw [if_pos hm] at h
    simp only [Bool.and_eq_true, decide_eq_true_eq] at h
    rw [if_pos (by rw [if_pos (Or.inl hm)]; exact h)]
    exact ⟨_, rfl⟩
  · rw [if_neg hm] at h
    simp only [Bool.and_eq_true, decide_eq_true_eq] at h
    obtain ⟨hne, hdec⟩ := h
    cases hl : l with
    | nil => exact absurd hl hne
    | cons c cs =>
      rw [hl] at hdec
      have hnp := head_not_plus_of_all_decimal hdec
      rw [if_pos (by rw [if_neg hnp]; exact ⟨by simp, hdec⟩)]
      exact ⟨_, rfl⟩

theorem int_success_pattern {l : List Char} {n : Int} (hst : stripChars l = l)
    (hg : intGuard l = true) (hp : pyIntOfChars l = some n) :
    matchesDecimalIntPattern l = true := by
  rw [pyIntOfChars_eq l hst] at hp
  simp only [matchesDecimalIntPattern]
  by_cases hp2 : l.head? = some '+'
  · exfalso
    unfold intGuard pyIsDigitL at hg
    cases hl : l with
    | nil => rw [hl] at hp2; exact absurd hp2 (by decide)
    | cons c cs =>
      rw [hl] at hp2
      simp only [List.head?_cons, Option.some.injEq] at hp2
      subst hp2
      rw [hl] at hg
      simp only [List.head?_cons, List.all_cons] at hg
      simp at hg
      exact absurd hg.1 (by decide)
  · by_cases hm : l.head? = some '-'
    · simp only [if_pos (Or.inl hm)] at hp
      rw [if_pos hm]
      by_cases hc : l.tail ≠ [] ∧ l.tail.all pyIsDecimalChar = true
      · simp [hc.1, hc.2]
      · rw [if_neg hc] at hp
        exact absurd hp (by simp)
    · have hnm : ¬(l.head? = some '-' ∨ l.head? = some '+') := by
        intro hd
        rcases hd with hd | hd
        · exact hm hd
        · exact hp2 hd
      simp only [if_neg hnm] at hp
      rw [if_neg hm]
      by_cases hc : l ≠ [] ∧ l.all pyIsDecimalChar = true
      · simp [hc.1, hc.2]
      · rw [if_neg hc] at hp
        exact absurd hp (by simp)

theorem floatBranch_shape (l : List Char) :
    isFloatV (floatBranch l) = true ∨ floatBranch l = .strV (String.mk l) := by
  unfold floatBranch
  by_cases hd : (l.contains '.' && l.any pyIsDigitChar) = true
  · rw [if_pos hd]
    cases hf : pyFloatOfChars l with
    | some q => exact Or.inl rfl
    | none => exact Or.inr rfl
  · rw [if_neg hd]
    exact Or.inr rfl

theorem floatBranch_not_int (l : List Char) : isIntV (floatBranch l) = false := by
  rcases floatBranch_shape l with h | h
  · cases hv : floatBranch l with
    | floatV q => rfl
    | NoneV => rfl
    | boolV b => rfl
    | intV n => rw [hv] at h; exact absurd h (by simp [isFloatV])
    | strV t => rfl
  · rw [h]
    rfl

theorem lowerChars_pattern_ne_none {l : List Char}
    (h : matchesDecimalIntPattern l = true) : lowerChars l ≠ "none".toList := by
  intro hn
  simp only [matchesDecimalIntPattern] at h
  cases l with
  | nil => simp [lowerChars] at hn
  | cons c t =>
    have hc : lowerChar c = 'n' := by
      have : lowerChars (c :: t) = 'n' :: ['o', 'n', 'e'] := hn
      simp only [lowerChars, List.map_cons, List.cons.injEq] at this
      exact this.1
    have hcd : pyIsDecimalChar c = true ∨ c = '-' := by
      by_cases hm : (c :: t).head? = some '-'
      · simp only [List.head?_cons, Option.some.injEq] at hm
        exact Or.inr hm
      · rw [if_neg hm] at h
        simp only [Bool.and_eq_true, decide_eq_true_eq, List.all_cons] at h
        exact Or.inl h.2.1
    rcases hcd with hcd | hcd
    · have hrange : (48 ≤ c.toNat ∧ c.toNat ≤ 57) ∨ (1632 ≤ c.toNat ∧ c.toNat ≤ 1641) := by
        simpa [pyIsDecimalChar, Bool.or_eq_true, Bool.and_eq_true,
          decide_eq_true_eq] using hcd
      have hni : ¬((65 ≤ c.toNat && c.toNat ≤ 90) = true) := by
        simp only [Bool.and_eq_true, decide_eq_true_eq, not_and]
        omega
      rw [lowerChar, if_neg hni] at hc
      rw [hc] at hcd
      exact absurd hcd (by decide)
    · rw [hcd] at hc
      exact absurd hc (by decide)

/-- C3 (amended): `normalize_cell` classifies a cell as Integer exactly
when its trimmed text is an optional leading minus sign followed by one
or more decimal digits in the Python sense (`str.isdigit` guard plus a
successful `int()`), which on ASCII text coincides with `^-?[0-9]+$`
but also accepts e.g. Arabic-Indic digits; any non-empty, non-`none`
text not of that shape (and not classified Float) is returned as the
trimmed Text. -/
theorem c3_integer_classification (s : String) :
    (isIntV (normalize_cell (some s)) = matchesDecimalIntPattern (stripChars s.toList)) ∧
    (stripChars s.toList ≠ [] →
      lowerChars (stripChars s.toList) ≠ "none".toList →
      matchesDecimalIntPattern (stripChars s.toList) = false →
      isFloatV (normalize_cell (some s)) = true ∨
        normalize_cell (some s) = .strV (pyStrip s)) := by
  have hst : stripChars (stripChars s.toList) = stripChars s.toList := stripChars_idem _
  constructor
  · rw [normalize_cell_some_eq]
    by_cases h0 : stripChars s.toList = []
    · rw [if_pos h0, h0]
      decide
    · rw [if_neg h0]
      by_cases h1 : lowerChars (stripChars s.toList) = "none".toList
      · rw [if_pos h1]
        cases hpat : matchesDecimalIntPattern (stripChars s.toList) with
        | false => rfl
        | true => exact absurd h1 (lowerChars_pattern_ne_none hpat)
      · rw [if_neg h1]
        by_cases hg : intGuard (stripChars s.toList) = true
        · rw [if_pos hg]
          cases hp : pyIntOfChars (stripChars s.toList) with
          | some n =>
            rw [int_success_pattern hst hg hp]
            rfl
          | none =>
            cases hpat : matchesDecimalIntPattern (stripChars s.toList) with
            | false => exact floatBranch_not_int _
            | true =>
              obtain ⟨m, hm⟩ := pattern_parse_some hst hpat
              rw [hp] at hm
              exact absurd hm (by simp)
        · rw [if_neg hg]
          cases hpat : matchesDecimalIntPattern (stripChars s.toList) with
          | false => exact floatBranch_not_int _
          | true => exact absurd (pattern_guard hpat) hg
  · intro h0 h1 hpat
    rw [normalize_cell_some_eq, if_neg h0, if_neg h1]
    by_cases hg : intGuard (stripChars s.toList) = true
    · rw [if_pos hg]
      cases hp : pyIntOfChars (stripChars s.toList) with
      | some n =>
        rw [int_success_pattern hst hg hp] at hpat
        exact absurd hpat (by simp)
      | none => exact floatBranch_shape _
    · rw [if_neg hg]
      exact floatBranch_shape _

/-- Witness for `c3_integer_classification` at the cells `"abc"` (kept
as text) and `"42"` (classified Integer). -/
theorem c3_witness :
    (isIntV (normalize_cell (some "abc")) =
      matchesDecimalIntPattern (stripChars "abc".toList)) ∧
    (isFloatV (normalize_cell (some "abc")) = true ∨
      normalize_cell (some "abc") = .strV (pyStrip "abc")) ∧
    (isIntV (normalize_cell (some "42")) =
      matchesDecimalIntPattern (stripChars "42".toList)) :=
  ⟨(c3_integer_classification "abc").1,
   (c3_integer_classification "abc").2 (by decide) (by decide) (by decide),
   (c3_integer_classification "42").1⟩

end WestendData
